import Mathlib

/-!
Verification of the lineage-aware semantic retrieval extraction pipeline.

This file gives a shallow embedding, in Lean, of the identifier
normalization, candidate resolution, fetch/cache, consent detection,
lineage gating and claims segmentation logic of the repository
(`scripts/canonical/step_c_claim_representation_v3.py`,
`scripts/canonical/step_b_fetch_ops_family.py`,
`scripts/canonical/sem_v2_02_fetch_google_fulltext.py`,
`scripts/canonical/step_c_lineage_gate.py`,
`scripts/canonical/step_c2_build_chunks_v2.py`), and proves or refutes
the specification's claims about that logic.

Python strings are modelled as Lean `String`/`List Char`; the small
Python string primitives used by the scripts (`strip`, `upper`,
`lower`, `replace`, `split`, `zfill`, containment) are re-implemented
below over `List Char` so that every step of the translation can be
checked against the source line by line.  Machine behaviour that the
scripts observe through the network (HTTP responses) or the filesystem
(cache entries) is passed in explicitly as data.
-/

namespace Lasr

/-! ### Python string primitives -/

/-- ASCII model of Python's `\s` class for `str` (space, tab, newline,
carriage return, vertical tab, form feed). -/
def isPySpace (c : Char) : Bool :=
  c = ' ' || c = '\t' || c = '\n' || c = '\r' || c = '\x0b' || c = '\x0c'

/-- The character class `[A-Z]` used by the kind-code regexes. -/
def isUpperAZ (c : Char) : Bool := 'A' ≤ c && c ≤ 'Z'

/-- Python `str.strip()` (ASCII whitespace model). -/
def pyStrip (cs : List Char) : List Char :=
  ((cs.dropWhile isPySpace).reverse.dropWhile isPySpace).reverse

/-- Python `str.upper()` (ASCII model). -/
def pyUpper (cs : List Char) : List Char := cs.map Char.toUpper

/-- Python `str.lower()` (ASCII model). -/
def pyLower (cs : List Char) : List Char := cs.map Char.toLower

/-- Python `s.startswith(pat)`. -/
def pyStartsWith (s pat : String) : Bool := pat.data.isPrefixOf s.data

/-- Substring occurrence test on character lists. -/
def containsSub : List Char → List Char → Bool
  | [], pat => pat.isEmpty
  | s@(_ :: r), pat => pat.isPrefixOf s || containsSub r pat

/-- Python `pat in s` substring containment. -/
def strContains (s pat : String) : Bool := containsSub s.data pat.data

/-- Python `s.split(".")`: splits at every dot, keeping empty pieces. -/
def splitDots : List Char → List (List Char)
  | [] => [[]]
  | c :: r =>
    if c = '.' then [] :: splitDots r
    else
      match splitDots r with
      | [] => [[c]]
      | h :: t => (c :: h) :: t

/-- Strict lexicographic comparison of character lists (Python `str <`). -/
def lexLt : List Char → List Char → Bool
  | [], [] => false
  | [], _ :: _ => true
  | _ :: _, [] => false
  | a :: as, b :: bs => if a < b then true else if b < a then false else lexLt as bs

/-- Python `str <=`, defined from `lexLt`. -/
def lexLe (a b : List Char) : Bool := ! lexLt b a

/-- The `strip().upper().replace(" ", "")` normalization applied by
`parse_concat_pub` and `_us_insert_zero_variant`. -/
def normPubChars (cs : List Char) : List Char :=
  (pyUpper (pyStrip cs)).filter (fun c => c ≠ ' ')

def normPub (s : String) : String := String.mk (normPubChars s.data)

/-! ### Identifier normalizer (`step_c_claim_representation_v3.py`) -/

/-- The trailing-kind regex `([A-Z]\d?)$` of `_KIND_RE.search`: the kind
code is the final letter-digit pair when the string ends in one, else
the final letter when the string ends in a letter. -/
def kindMatch (cs : List Char) : Option (List Char) :=
  match cs.reverse with
  | d :: k :: _ =>
    if isUpperAZ k && d.isDigit then some [k, d]
    else if isUpperAZ d then some [d]
    else none
  | [d] => if isUpperAZ d then some [d] else none
  | [] => none

/-- `parse_concat_pub`: `US2021372574A1 -> (US, 2021372574, A1)`. -/
def parse_concat_pub (pub : String) : Option (String × String × String) :=
  let p := normPubChars pub.data
  if p.length < 4 then none
  else if ! (p.take 2).all Char.isAlpha then none
  else
    match kindMatch p with
    | none => none
    | some kind =>
      let number := (p.drop 2).take (p.length - 2 - kind.length)
      if number ≠ [] && number.all Char.isDigit then
        some (String.mk (p.take 2), String.mk number, String.mk kind)
      else none

/-- `to_dotted_from_concat`: concatenated form to `CC.NUMBER.KIND`. -/
def to_dotted_from_concat (pub : String) : Option String :=
  match parse_concat_pub pub with
  | none => none
  | some (cc, number, kind) => some (cc ++ "." ++ number ++ "." ++ kind)

/-- `split_dotted`: splits a dotted docdb key into its three nonempty parts. -/
def split_dotted (docdb : String) : Option (String × String × String) :=
  match splitDots (pyUpper (pyStrip docdb.data)) with
  | [cc, number, kind] =>
    if cc ≠ [] && number ≠ [] && kind ≠ [] then
      some (String.mk cc, String.mk number, String.mk kind)
    else none
  | _ => none

/-- `is_kind_letter_only`: the kind code is a single bare letter. -/
def is_kind_letter_only (kind : String) : Bool :=
  let k := pyUpper (pyStrip kind.data)
  k.length = 1 && k.all Char.isAlpha

/-- `kind_letter`: first character of the normalized kind code. -/
def kind_letter (kind : String) : String :=
  String.mk ((pyUpper (pyStrip kind.data)).take 1)

/-! ### Candidate resolver (`build_try_list`) -/

/-- The preference score of `build_try_list`: family members whose kind
code is the wanted letter followed by a preferred suffix score 0 (suffix
`"1"`) or 1 (any other preferred suffix); everything else scores 5. The
docdb string itself is the tie-break component of the Python sort key. -/
def score (want : String) (preferred : List String) (d : String) : Nat × String :=
  match split_dotted d with
  | none => (999, d)
  | some (_cc, _n, k) =>
    if k.length ≥ 2 && k.take 1 = want then
      let suf := k.drop 1
      if suf ∈ preferred then (if suf = "1" then 0 else 1, d) else (5, d)
    else (5, d)

/-- Ordering on Python sort keys `(int, str)`: lexicographic pairs. -/
def keyLe (x y : Nat × String) : Bool :=
  x.1 < y.1 || (x.1 = y.1 && lexLe x.2.data y.2.data)

/-- The comparison used to sort family-fallback candidates, i.e.
`sorted(..., key=score)` of the Python source.  Because the docdb string
is part of the key, this is a total order with no ties between distinct
candidates, so the sorted result does not depend on the hash order of
the intermediate Python `set`. -/
def scoreLe (want : String) (preferred : List String) (a b : String) : Prop :=
  keyLe (score want preferred a) (score want preferred b) = true

instance (want preferred) : DecidableRel (scoreLe want preferred) := by
  intro a b; unfold scoreLe; infer_instance

/-- First-occurrence deduplication used to model Python `set(...)`
(order irrelevant here because the result is subsequently sorted by a
total key). -/
def setDedup : List String → List String → List String
  | [], _ => []
  | x :: xs, seen => if x ∈ seen then setDedup xs seen else x :: setDedup xs (x :: seen)

/-- The final dedupe loop of `build_try_list`: keeps the first
occurrence of each nonempty string, dropping empties and duplicates. -/
def dedupeKeep : List String → List String → List String
  | [], _ => []
  | x :: xs, seen =>
    if x = "" || x ∈ seen then dedupeKeep xs seen else x :: dedupeKeep xs (x :: seen)

/-- The seed's normalized dotted form computed at the top of
`build_try_list`: the candidate itself when it already contains a dot,
otherwise its concat-to-dotted conversion, then `strip().upper()`. -/
def seed_dotted (candidate : String) : String :=
  let dotted0 := if candidate.data.contains '.' then candidate
                 else (to_dotted_from_concat candidate).getD ""
  String.mk (pyUpper (pyStrip dotted0.data))

/-- `build_try_list(row, candidate)` with the row's
`processing_publications` passed as `proc`. -/
def build_try_list (proc : List String) (candidate : String) : List String :=
  let dotted := seed_dotted candidate
  let tries : List String := if dotted ≠ "" then [dotted] else []
  let proc_dotted := proc.filterMap to_dotted_from_concat
  match (if dotted ≠ "" then split_dotted dotted else none) with
  | none => dedupeKeep tries []
  | some (cc, _number, kind) =>
    if is_kind_letter_only kind then
      let want := kind_letter kind
      let preferred : List String := if want = "A" then ["1", "2"] else ["1", "2", "3"]
      let candidates2 := proc_dotted.filter (fun d =>
        match split_dotted d with
        | none => false
        | some (cc2, _n2, kind2) =>
          cc2 = cc && kind_letter kind2 = want && ! is_kind_letter_only kind2)
      let sorted := List.insertionSort (scoreLe want preferred) (setDedup candidates2 [])
      dedupeKeep (tries ++ sorted) []
    else dedupeKeep tries []

/-! ### US zero-padding variant generators -/

/-- Tail of the US publication regexes: `(\d+)([A-Z]\d?)$` demands a
single trailing letter or letter-digit kind after the digit run. -/
def kindTail : List Char → Option (List Char)
  | [k] => if isUpperAZ k then some [k] else none
  | [k, d] => if isUpperAZ k && d.isDigit then some [k, d] else none
  | _ => none

/-- Decomposition of the part after the year by `(\d+)([A-Z]\d?)$`:
the greedy digit run is the serial, the remainder must be a kind code. -/
def usTailSplit (rest : List Char) : Option (List Char × List Char) :=
  if rest.takeWhile Char.isDigit = [] then none
  else
    match kindTail (rest.dropWhile Char.isDigit) with
    | none => none
    | some kind => some (rest.takeWhile Char.isDigit, kind)

/-- The anchored match `^US(20\d{2})(\d+)([A-Z]\d?)$` of `_US_PUB_RE`,
returning (year digits, serial digits, kind). -/
def usMatch : List Char → Option (List Char × List Char × List Char)
  | 'U' :: 'S' :: '2' :: '0' :: y3 :: y4 :: rest =>
    if y3.isDigit && y4.isDigit then
      match usTailSplit rest with
      | none => none
      | some (mid, kind) => some (['2', '0', y3, y4], mid, kind)
    else none
  | _ => none

/-- `_us_insert_zero_variant` (`step_c_claim_representation_v3.py`):
for a US publication whose serial segment after the year has exactly 6
digits, insert a single `0` after the year; otherwise produce nothing. -/
def us_insert_zero_variant (pub : String) : Option String :=
  match usMatch (normPubChars pub.data) with
  | none => none
  | some (year, mid, kind) =>
    if mid.length = 6 then
      some (String.mk ('U' :: 'S' :: year ++ '0' :: (mid ++ kind)))
    else none

/-- The slug try-list built at the top of `fetch_claims_google_text`:
the normalized publication itself, then the zero-insert variant when it
exists and differs. -/
def google_pubs_to_try (publication : String) : List String :=
  match us_insert_zero_variant (normPub publication) with
  | some alt0 =>
    if alt0 ≠ normPub publication then [normPub publication, alt0]
    else [normPub publication]
  | none => [normPub publication]

/-- Python `str.zfill` for digit strings: left-pad with `'0'` to the
requested width. -/
def zfill (w : Nat) (cs : List Char) : List Char :=
  List.replicate (w - cs.length) '0' ++ cs

/-- The anchored match `^(US)(\d{4})(\d+)([A-Z]\d?)$` used by
`us_insert_zero_variants` in `sem_v2_02_fetch_google_fulltext.py`:
any four digits of year, a nonempty greedy serial, then the kind. -/
def usMatchB : List Char → Option (List Char × List Char × List Char)
  | 'U' :: 'S' :: rest =>
    let run := rest.takeWhile Char.isDigit
    if run.length ≥ 5 then
      match kindTail (rest.dropWhile Char.isDigit) with
      | none => none
      | some kind => some (run.take 4, run.drop 4, kind)
    else none
  | _ => none

/-- `us_insert_zero_variants` (`sem_v2_02_fetch_google_fulltext.py`):
zero-pads the serial to widths 7 and 8, keeping the variants that
differ from the input, in that order. -/
def us_insert_zero_variants (pub : String) : List String :=
  let p := pyUpper (pyStrip pub.data)
  match p with
  | 'U' :: 'S' :: _ =>
    (match usMatchB p with
     | none => []
     | some (year, serial, kind) =>
       if serial ≠ [] && serial.all Char.isDigit then
         let v7 := String.mk ('U' :: 'S' :: year ++ zfill 7 serial ++ kind)
         let v8 := String.mk ('U' :: 'S' :: year ++ zfill 8 serial ++ kind)
         let ps := String.mk p
         let out1 : List String := if v7 ≠ ps then [v7] else []
         if v8 ≠ ps && ! out1.contains v8 then out1 ++ [v8] else out1
       else [])
  | _ => []

/-- `candidate_google_slugs` (`sem_v2_02_fetch_google_fulltext.py`):
the publication itself followed by its zero-padded variants. -/
def candidate_google_slugs (pub : String) : List String :=
  let p := String.mk (pyUpper (pyStrip pub.data))
  p :: (us_insert_zero_variants p).filter (fun v => v ≠ p)

/-! ### Primary source fetchers

`fetch_family_docdb` (`step_b_fetch_ops_family.py`) and
`fetch_claims_xml` (`step_c_claim_representation_v3.py`).  The network
is passed in as the ordered list of responses the environment returns
to successive HTTP requests; the disk cache entry for the queried key
is passed in and returned explicitly. -/

/-- One HTTP outcome as observed by the Python `requests` call: either
an exception (timeout / connection error) or a response with a status
code, a flag telling whether the body matches the invalid-token
signature checked by the source, and a body payload. -/
inductive Resp where
  | timeout : Resp
  | http (status : Nat) (invalidTokenBody : Bool) (body : String) : Resp
deriving DecidableEq

/-- State of the single cache file for the queried key: a parseable
payload or a corrupted entry that `json.loads` rejects. -/
inductive CacheEntry where
  | valid (data : String) : CacheEntry
  | corrupted : CacheEntry
deriving DecidableEq

/-- Result tuple of `fetch_family_docdb`:
`(raw_json_or_none, cache_hit, http_status, retry_count, token_state)`
(the elapsed-milliseconds component is timing, not data, and is
omitted). -/
structure FamilyOut where
  raw : Option String
  cache_hit : Bool
  http_status : Int
  retry_count : Nat
  token_state : String
deriving DecidableEq

def MAX_RETRY : Nat := 3

/-- `ensure_token`: the environment token when present and long enough,
otherwise a token from the refresh helper (`fresh` models the stream of
tokens `ops_get_token.py` would return). -/
def ensure_token (env : Option String) (fresh : List String) : String × List String :=
  match env with
  | some t =>
    let t' := String.mk (pyStrip t.data)
    if t' ≠ "" && t'.length ≥ 20 then (t', fresh) else (fresh.headD "tok", fresh.tail)
  | none => (fresh.headD "tok", fresh.tail)

/-- The retry loop of `fetch_family_docdb`.  `left` is the number of
loop iterations remaining (the Python `for attempt in range(1,
MAX_RETRY + 1)`), `attempt` the 1-based attempt number.  An exhausted
response list behaves like a network exception.  Note that the
invalid-token refresh branch re-enters the loop with `continue`, which
advances the Python loop variable: the refreshed retry consumes an
attempt. -/
def familyLoop : Nat → Nat → List String → List Resp → String → String →
    Option CacheEntry → FamilyOut × Option CacheEntry
  | 0, _attempt, _fresh, _resps, _token, tokenState, cache =>
    (⟨none, false, -1, MAX_RETRY, tokenState⟩, cache)
  | left + 1, attempt, fresh, resps, token, tokenState, cache =>
    match resps with
    | [] => familyLoop left (attempt + 1) fresh [] token tokenState cache
    | Resp.timeout :: rest => familyLoop left (attempt + 1) fresh rest token tokenState cache
    | Resp.http st inv body :: rest =>
      if (st = 400 || st = 401) && inv then
        familyLoop left (attempt + 1) fresh.tail rest (fresh.headD "tok") "refreshed" cache
      else if st = 200 then
        (⟨some body, false, 200, attempt - 1, tokenState⟩, some (CacheEntry.valid body))
      else if st = 429 || st = 500 || st = 502 || st = 503 then
        familyLoop left (attempt + 1) fresh rest token tokenState cache
      else
        (⟨none, false, (st : Int), attempt - 1, tokenState⟩, cache)

/-- `fetch_family_docdb`: cache-first (a corrupted entry is unlinked and
treated as a miss), then the authenticated retry loop. -/
def fetch_family_docdb (cache : Option CacheEntry) (env : Option String)
    (fresh : List String) (resps : List Resp) : FamilyOut × Option CacheEntry :=
  match cache with
  | some (CacheEntry.valid data) =>
    (⟨some data, true, 200, 0, "cache"⟩, some (CacheEntry.valid data))
  | some CacheEntry.corrupted =>
    let (tok, fresh') := ensure_token env fresh
    familyLoop MAX_RETRY 1 fresh' resps tok "env" none
  | none =>
    let (tok, fresh') := ensure_token env fresh
    familyLoop MAX_RETRY 1 fresh' resps tok "env" none

/-- A response to the OPS claims GET of `fetch_claims_xml`: status
code, content-type header and body text. -/
structure XResp where
  status : Nat
  ctype : String
  body : String
deriving DecidableEq

/-- `fetch_claims_xml`: returns `((xml_text, status), cache_after)`.
A cache file is returned verbatim with status `OK(CACHE)` — the source
performs no validation and no deletion on the cache-read path. -/
def fetch_claims_xml (cache : Option String) (r : XResp) :
    (Option String × String) × Option String :=
  match cache with
  | some t => ((some t, "OK(CACHE)"), some t)
  | none =>
    if r.status = 404 then ((none, "OPS_404"), none)
    else if r.status = 401 then ((none, "OPS_401"), none)
    else if r.status = 403 then ((none, "OPS_403"), none)
    else if r.status ≥ 400 then ((none, "OPS_OTHER_" ++ toString r.status), none)
    else if ! strContains (String.mk (pyLower r.ctype.data)) "xml" then
      ((none, "OPS_NON_XML"), none)
    else ((some r.body, "OK"), some r.body)

/-! ### Lineage gate (`step_c_lineage_gate.py`) -/

/-- The fields of one extraction record inspected by the gate.  A JSON
field that is missing or not a string is `none`; `governance_flags` is
`none` when absent or not an array of strings. -/
structure GRow where
  claims_source : Option String
  google_seed_publication : Option String
  google_resolved_publication : Option String
  google_status : Option String
  claims_google_text_path : Option String
  governance_flags : Option (List String)
  selected_source : Option String
deriving DecidableEq

/-- `is_nonempty_str`. -/
def is_nonempty_str : Option String → Bool
  | none => false
  | some s => pyStrip s.data ≠ []

/-- `sorted(list(REQUIRED_FLAGS))` with
`REQUIRED_FLAGS = {"THIRD_PARTY_SOURCE", "COVERAGE_FALLBACK"}`. -/
def REQUIRED_FLAGS_sorted : List String := ["COVERAGE_FALLBACK", "THIRD_PARTY_SOURCE"]

/-- `validate_google_row`: returns `(ok, reasons)`.  `fileExists` is
the filesystem oracle behind the optional `--check-files` pass. -/
def validate_google_row (row : GRow) (check_files : Bool)
    (fileExists : String → Bool) : Bool × List String :=
  if row.claims_source ≠ some "GOOGLE" then (true, [])
  else
    let ra := if ! is_nonempty_str row.google_seed_publication
              then ["MISSING google_seed_publication"] else []
    let rb := if ! is_nonempty_str row.google_resolved_publication
              then ["MISSING google_resolved_publication"] else []
    let rc := if ! is_nonempty_str row.google_status
              then ["MISSING google_status"] else []
    let rd := if ! is_nonempty_str row.claims_google_text_path
              then ["MISSING claims_google_text_path"] else []
    let re := match row.governance_flags with
      | none => ["governance_flags is not an array[str]"]
      | some flags =>
        let missing := REQUIRED_FLAGS_sorted.filter (fun f => ! flags.contains f)
        if missing ≠ [] then
          ["Missing governance_flags: " ++ String.intercalate "," missing]
        else []
    let rf := match row.selected_source with
      | none => ["MISSING selected_source"]
      | some s =>
        if pyStrip s.data = [] then ["MISSING selected_source"]
        else if ! pyStartsWith s "GOOGLE_FALLBACK_" then
          ["selected_source must start with GOOGLE_FALLBACK_"]
        else []
    let rg := match row.claims_google_text_path with
      | some p =>
        if check_files && is_nonempty_str (some p) && ! fileExists p then
          ["TXT file not found: " ++ p]
        else []
      | none => []
    let reasons := ra ++ rb ++ rc ++ rd ++ re ++ rf ++ rg
    (reasons.isEmpty, reasons)

/-- The batch pass of `main` in `step_c_lineage_gate.py` after a
successful load: exit code 0 on pass, 1 on failure. -/
def lineage_gate (rows : List GRow) (check_files : Bool)
    (fileExists : String → Bool) : Nat :=
  let google_rows := rows.filter (fun r => r.claims_source = some "GOOGLE")
  if google_rows.isEmpty then 0
  else if google_rows.any (fun r => ! (validate_google_row r check_files fileExists).1)
  then 1 else 0

/-! ### Consent/robot interstitial detection
(`sem_v2_02_fetch_google_fulltext.py`) -/

def consentIndicators : List String :=
  ["before you continue", "consent", "unusual traffic", "automated queries",
   "verify you are a human", "captcha", "robot"]

/-- `looks_like_consent_or_robot(soup, html_text)`.  The inputs are the
page title text, the first `h1` text, and the raw HTML.  The Python
computes the lowercased title but the indicator check `blob` is built
from the `h1` text alone; the body fallback scans only the first 8000
characters for a fixed subset of markers. -/
def looks_like_consent_or_robot (title h1 html_text : String) : Bool :=
  let _titleLower := String.mk (pyLower (pyStrip title.data))
  let blob := String.mk (pyStrip (pyLower (pyStrip h1.data)))
  if consentIndicators.any (fun k => strContains blob k) then true
  else
    let sample := String.mk (pyLower (html_text.data.take 8000))
    if strContains sample "captcha" || strContains sample "unusual traffic" then true
    else if strContains sample "consent" && strContains sample "google" then true
    else false

/-- A fetched secondary-source page (HTTP 200) as seen by the per-seed
loop of `main`: title and first-h1 text, raw HTML, and the text of the
claims/description sections that BeautifulSoup extraction yields. -/
structure GPage where
  title : String
  h1 : String
  html : String
  claims : String
  description : String

/-- The per-page outcome recorded in `{PUB}.json`: `status` and
`reason` as set by the body of `main` once a 200 response was chosen.
A consent/robot match fails the record before extraction; otherwise the
record fails only when both sections are empty. -/
def process_google_page (pg : GPage) : String × String :=
  if looks_like_consent_or_robot pg.title pg.h1 pg.html then
    ("FAIL", "CONSENT_OR_ROBOT_PAGE")
  else if pg.claims = "" && pg.description = "" then ("FAIL", "NO_TEXT_FOUND")
  else ("OK", "")

/-! ### Text normalization (`step_c2_build_chunks_v2.py`) -/

/-- Python `s.replace("\r\n", "\n")`. -/
def replaceCRLF : List Char → List Char
  | '\r' :: '\n' :: r => '\n' :: replaceCRLF r
  | c :: r => c :: replaceCRLF r
  | [] => []

def isBlankWS (c : Char) : Bool := c = ' ' || c = '\t'

/-- `_RE_WS.sub(" ", t)`: every maximal run of spaces/tabs becomes one
space.  `inRun` records whether the previous character was in a run. -/
def collapseWSAux : Bool → List Char → List Char
  | _, [] => []
  | inRun, c :: r =>
    if isBlankWS c then
      if inRun then collapseWSAux true r else ' ' :: collapseWSAux true r
    else c :: collapseWSAux false r

/-- `_RE_MULTIBLANK.sub("\n\n", t)`: every maximal run of three or more
newlines becomes two.  `n` counts the newlines of the current run
already emitted. -/
def collapseNLAux : Nat → List Char → List Char
  | _, [] => []
  | n, c :: r =>
    if c = '\n' then
      if n < 2 then '\n' :: collapseNLAux (n + 1) r else collapseNLAux n r
    else c :: collapseNLAux 0 r

/-- `normalize_text` of `step_c2_build_chunks_v2.py`. -/
def normalize_text (t : String) : String :=
  let a := pyStrip (replaceCRLF t.data)
  String.mk (pyStrip (collapseNLAux 0 (collapseWSAux false a)))

/-! ### A small backtracking regex engine

Used to embed the `Claims (N)` header patterns of
`step_c2_build_chunks_v2.py` faithfully, backtracking order included.
`quest`/`rep1` are the greedy `?`/`+` quantifiers. -/

inductive RE where
  | eps : RE
  | cls (p : Char → Bool) : RE
  | seq (a b : RE) : RE
  | alt (a b : RE) : RE
  | star (a : RE) : RE

def RE.quest (a : RE) : RE := RE.alt a RE.eps

def RE.rep1 (a : RE) : RE := RE.seq a (RE.star a)

/-- Run a regex against a character list, producing the list of
possible remainders in Python backtracking priority order (greedy
quantifiers longest-first, left alternative first).  `fuel` bounds the
recursion depth; callers pass a fuel that is ample for their input. -/
def RErun : Nat → RE → List Char → List (List Char)
  | 0, _, _ => []
  | _ + 1, RE.eps, s => [s]
  | _ + 1, RE.cls _, [] => []
  | _ + 1, RE.cls p, c :: r => if p c then [r] else []
  | f + 1, RE.seq a b, s => (RErun f a s).flatMap (RErun f b)
  | f + 1, RE.alt a b, s => RErun f a s ++ RErun f b s
  | f + 1, RE.star a, s =>
    ((RErun f a s).flatMap (RErun f (RE.star a))) ++ [s]

/-- Replace one match of a `^`-anchored pattern (no `re.M`) with the
empty string: Python's `pattern.sub("", txt)` for the header patterns,
which can only ever match at position 0. -/
def reSubAnchored (r : RE) (cs : List Char) : List Char :=
  match RErun ((cs.length + 4) * 64) r cs with
  | [] => cs
  | rem :: _ => rem

/-- Case-insensitive literal character. -/
def ciChar (c : Char) : RE := RE.cls (fun x => x.toLower = c)

def chrRE (c : Char) : RE := RE.cls (fun x => x = c)

def seqAll : List RE → RE
  | [] => RE.eps
  | [r] => r
  | r :: rest => RE.seq r (seqAll rest)

/-- Case-insensitive literal word. -/
def ciWord (s : String) : RE := seqAll (s.data.map ciChar)

def spRE : RE := RE.cls isPySpace

def digitRE : RE := RE.cls Char.isDigit

/-- `(\n|\r\n)` as written in the source patterns. -/
def nlRE : RE := RE.alt (chrRE '\n') (RE.seq (chrRE '\r') (chrRE '\n'))

/-- `_RE_CLAIMS_HEADER_BLOCK`:
`(?is)^\s*claims?\s*(\(\s*\d+\s*\))?\s*(\n|\r\n)+\s*(\d+\s*(\n|\r\n)+\s*)?\)\s*(\n|\r\n)+`. -/
def headerBlockRE : RE :=
  seqAll
    [RE.star spRE, ciWord "claim", RE.quest (ciChar 's'), RE.star spRE,
     RE.quest (seqAll [chrRE '(', RE.star spRE, RE.rep1 digitRE, RE.star spRE, chrRE ')']),
     RE.star spRE, RE.rep1 nlRE, RE.star spRE,
     RE.quest (seqAll [RE.rep1 digitRE, RE.star spRE, RE.rep1 nlRE, RE.star spRE]),
     chrRE ')', RE.star spRE, RE.rep1 nlRE]

/-- `_RE_CLAIMS_HEADER_INLINE`: `(?is)^\s*claims?\s*\(\s*\d+\s*\)\s*`. -/
def headerInlineRE : RE :=
  seqAll
    [RE.star spRE, ciWord "claim", RE.quest (ciChar 's'), RE.star spRE,
     chrRE '(', RE.star spRE, RE.rep1 digitRE, RE.star spRE, chrRE ')', RE.star spRE]

/-- `strip_google_claims_header`. -/
def strip_google_claims_header (claims_raw : String) : String :=
  let txt := pyStrip (replaceCRLF claims_raw.data)
  let txt2 := reSubAnchored headerBlockRE txt
  if txt2 ≠ txt then String.mk (pyStrip txt2)
  else String.mk (pyStrip (reSubAnchored headerInlineRE txt))

/-! ### Claims segmenter (`step_c2_build_chunks_v2.py`) -/

/-- Digit-list to number. -/
def digitsToNat (ds : List Char) : Nat :=
  ds.foldl (fun acc c => acc * 10 + (c.toNat - '0'.toNat)) 0

/-- Match `\s*(\d{1,4})\s*[\.):]\s+` at the start of `s` (the
`_RE_NUM_CLAIM_START` body after its `(?m)^` anchor).  All the
character classes involved are pairwise disjoint, so the greedy match
is deterministic; a digit run longer than 4 can never match because
the character after the digits would still be a digit.  Returns the
claim number and the total matched length. -/
def matchNumClaimStart (s : List Char) : Option (Nat × Nat) :=
  let w1 := (s.takeWhile isPySpace).length
  let r1 := s.drop w1
  let ds := r1.takeWhile Char.isDigit
  if ds.length = 0 || ds.length > 4 then none
  else
    let r2 := r1.drop ds.length
    let w2 := (r2.takeWhile isPySpace).length
    match r2.drop w2 with
    | c :: r4 =>
      if c = '.' || c = ')' || c = ':' then
        let w3 := (r4.takeWhile isPySpace).length
        if w3 ≥ 1 then some (digitsToNat ds, w1 + ds.length + w2 + 1 + w3)
        else none
      else none
    | [] => none

/-- `_RE_NUM_CLAIM_START.finditer(txt)`: scan left to right, matching
only at line starts (`(?m)^`), non-overlapping.  Returns
`(claim number, match start)` pairs in order.  `fuel` bounds the scan
(one unit per consumed character). -/
def findNumAux : Nat → List Char → Nat → Bool → List (Nat × Nat)
  | 0, _, _, _ => []
  | _ + 1, [], _, _ => []
  | fuel + 1, s@(c :: rest), pos, lineStart =>
    if lineStart then
      match matchNumClaimStart s with
      | some (n, len) =>
        (n, pos) ::
          findNumAux fuel (s.drop len) (pos + len)
            (((s.take len).getLastD ' ') = '\n')
      | none => findNumAux fuel rest (pos + 1) (c = '\n')
    else findNumAux fuel rest (pos + 1) (c = '\n')

def findNumMatches (cs : List Char) : List (Nat × Nat) :=
  findNumAux (cs.length + 1) cs 0 true

/-- Fullwidth or ASCII digit, the class `[0-9０-９]`. -/
def isWideDigit (c : Char) : Bool := c.isDigit || ('０' ≤ c && c ≤ '９')

/-- `_to_int_digit`: fullwidth digits are translated to ASCII before
conversion. -/
def wideDigitsToNat (ds : List Char) : Nat :=
  digitsToNat (ds.map (fun c => if '０' ≤ c && c ≤ '９'
    then Char.ofNat (c.toNat - '０'.toNat + '0'.toNat) else c))

/-- Match `LIT\s*([0-9０-９]+)` at the start of `s`; returns the claim
number and the matched length. -/
def matchMarkerAt (lit : List Char) (s : List Char) : Option (Nat × Nat) :=
  if lit.isPrefixOf s then
    let r1 := s.drop lit.length
    let w := (r1.takeWhile isPySpace).length
    let ds := (r1.drop w).takeWhile isWideDigit
    if ds ≠ [] then some (wideDigitsToNat ds, lit.length + w + ds.length)
    else none
  else none

/-- `finditer` for one CJK marker pattern: leftmost, non-overlapping
`(claim number, position)` pairs. -/
def findMarkerAux (lit : List Char) : Nat → List Char → Nat → List (Nat × Nat)
  | 0, _, _ => []
  | _ + 1, [], _ => []
  | fuel + 1, s@(_ :: rest), pos =>
    match matchMarkerAt lit s with
    | some (n, len) => (n, pos) :: findMarkerAux lit fuel (s.drop len) (pos + len)
    | none => findMarkerAux lit fuel rest (pos + 1)

def findMarkers (lit : String) (cs : List Char) : List (Nat × Nat) :=
  findMarkerAux lit.data (cs.length + 1) cs 0

/-- `strip_numbering_prefix`: drop a leading `1.`/`1)`/`1:` (with the
surrounding whitespace of `^\s*1\s*[\.):]\s*`) and strip. -/
def strip_numbering_prefix (line : String) : String :=
  let cs := line.data
  let stripped :=
    let r1 := cs.dropWhile isPySpace
    match r1 with
    | '1' :: r2 =>
      let r3 := r2.dropWhile isPySpace
      match r3 with
      | c :: r4 => if c = '.' || c = ')' || c = ':' then r4.dropWhile isPySpace else cs
      | [] => cs
    | _ => cs
  String.mk (pyStrip stripped)

/-- The sub of `^\s*\d{1,4}\s*[\.):]\s+` inside the numbered branch:
drop the leading marker when it matches at position 0. -/
def dropNumMarker (cs : List Char) : List Char :=
  match matchNumClaimStart cs with
  | some (_, len) => cs.drop len
  | none => cs

/-- The sub of `^(請求項|权利要求|權利要求|청구항)\s*[0-9０-９]+\s*`
inside the CJK branch. -/
def dropCJKMarker (cs : List Char) : List Char :=
  let tryLit := fun (lit : List Char) =>
    if lit.isPrefixOf cs then
      let r1 := cs.drop lit.length
      let w := (r1.takeWhile isPySpace).length
      let ds := (r1.drop w).takeWhile isWideDigit
      if ds ≠ [] then
        let r2 := (r1.drop w).drop ds.length
        some (r2.dropWhile isPySpace)
      else none
    else none
  match tryLit "請求項".data with
  | some r => r
  | none =>
    match tryLit "权利要求".data with
    | some r => r
    | none =>
      match tryLit "權利要求".data with
      | some r => r
      | none =>
        match tryLit "청구항".data with
        | some r => r
        | none => cs

/-- First-seen-wins insertion into the number-indexed claim map
(`if no not in claims and seg`). -/
def addClaim (m : List (Nat × String)) (no : Nat) (seg : String) : List (Nat × String) :=
  if (m.lookup no).isSome || seg = "" then m else m ++ [(no, seg)]

/-- Result of `parse_claims_to_map`. -/
structure ParsedClaims where
  method : String
  claims_by_no : List (Nat × String)
  raw_cleaned : String
deriving DecidableEq

/-- Build the claim map from the `(number, start)` match list over
`txt`, each claim's body extending to the next match (numbered
branch). -/
def numberedSegments (txt : List Char) : List (Nat × Nat) → List (Nat × String) → List (Nat × String)
  | [], m => m
  | (no, start) :: rest, m =>
    let stop := match rest with
      | (_, s2) :: _ => s2
      | [] => txt.length
    let seg0 := pyStrip ((txt.drop start).take (stop - start))
    let seg1 := pyStrip (dropNumMarker seg0)
    let seg := normalize_text (String.mk seg1)
    numberedSegments txt rest (addClaim m no seg)

/-- Build the claim map from the merged CJK marker list over `txt`. -/
def markerSegments (txt : List Char) : List (Nat × Nat) → List (Nat × String) → List (Nat × String)
  | [], m => m
  | (no, pos) :: rest, m =>
    let stop := match rest with
      | (_, s2) :: _ => s2
      | [] => txt.length
    let seg0 := pyStrip ((txt.drop pos).take (stop - pos))
    let seg1 := pyStrip (dropCJKMarker seg0)
    let seg := normalize_text (String.mk seg1)
    markerSegments txt rest (addClaim m no seg)

/-- `parse_claims_to_map`: header stripping, then the detection
cascade — Latin numbering, CJK markers merged and sorted by position,
unnumbered fallback. -/
def parse_claims_to_map (claims_raw : String) : ParsedClaims :=
  let raw := strip_google_claims_header claims_raw
  let txt := pyStrip (replaceCRLF raw.data)
  let nmatches := findNumMatches txt
  let numbered := if nmatches ≠ [] then numberedSegments txt nmatches [] else []
  if nmatches ≠ [] && numbered ≠ [] then
    ⟨"NUMBERED", numbered, normalize_text (String.mk txt)⟩
  else
    let markers :=
      List.insertionSort (fun a b : Nat × Nat => a.2 ≤ b.2)
        (findMarkers "請求項" txt ++ findMarkers "权利要求" txt ++
          findMarkers "權利要求" txt ++ findMarkers "청구항" txt)
    let byMarker := if markers ≠ [] then markerSegments txt markers [] else []
    if markers ≠ [] && byMarker ≠ [] then
      ⟨"CJK_MARKER", byMarker, normalize_text (String.mk txt)⟩
    else ⟨"UNNUMBERED_FALLBACK", [], normalize_text (String.mk txt)⟩

/-- Extraction metadata of `extract_claim1_and_claimset`. -/
structure ClaimMeta where
  claims_parse_method : String
  claim1_extraction_quality : String
  claim1_reason_code : Option String
deriving DecidableEq

/-- `extract_claim1_and_claimset`: canonical first claim, canonical
ordered claim set, and quality metadata. -/
def extract_claim1_and_claimset (claims_raw : String) :
    String × String × ClaimMeta :=
  let parsed := parse_claims_to_map claims_raw
  if (parsed.method = "NUMBERED" || parsed.method = "CJK_MARKER") &&
      parsed.claims_by_no ≠ [] then
    let ordered_nos := List.insertionSort (fun a b : Nat => a ≤ b)
      (parsed.claims_by_no.map Prod.fst)
    let claimset0 := String.intercalate "\n\n"
      (ordered_nos.filterMap (fun n =>
        match parsed.claims_by_no.lookup n with
        | some s => if s ≠ "" then some s else none
        | none => none))
    let claimset1 := normalize_text claimset0
    let c1a := normalize_text ((parsed.claims_by_no.lookup 1).getD "")
    let c1b := strip_numbering_prefix c1a
    let (c1c, qual1, reason1) :=
      if c1b = "" then
        match ordered_nos.head? with
        | some first_no =>
          ( strip_numbering_prefix (normalize_text
              ((parsed.claims_by_no.lookup first_no).getD "")),
            "LOW", some "CLAIM1_NOT_FOUND_FALLBACK_TO_FIRST")
        | none => ("", "LOW", some "CLAIM1_NOT_FOUND_FALLBACK_TO_FIRST")
      else (c1b, "HIGH", none)
    let (claimset2, qual2, reason2) :=
      if claimset1 = "" then
        (normalize_text parsed.raw_cleaned, "LOW",
          some (reason1.getD "CLAIMSET_EMPTY_AFTER_PARSE"))
      else (claimset1, qual1, reason1)
    (c1c, claimset2, ⟨parsed.method, qual2, reason2⟩)
  else
    let claimset := normalize_text parsed.raw_cleaned
    let firstPara := ((claimset.splitOn "\n\n").map
      (fun p => String.mk (pyStrip p.data))).find? (fun p => p ≠ "")
    let c1 := strip_numbering_prefix (normalize_text (firstPara.getD ""))
    (c1, claimset, ⟨parsed.method, "LOW", some "UNNUMBERED_FALLBACK"⟩)

/-! ### Concrete instances used by the claim theorems and witnesses -/

/-- The suffix ranking asserted by the spec's wording for the
family-fallback ordering (C6): suffix `"1"` above `"2"`, `"2"` above
every other numeric suffix, every numeric suffix above non-numeric
ones.  This definition follows the claim text, for comparison with the
code's `score`. -/
def claimSuffixRank (d : String) : Nat :=
  match split_dotted d with
  | some (_, _, k) =>
    let suf := k.drop 1
    if suf = "1" then 0
    else if suf = "2" then 1
    else if suf ≠ "" && suf.data.all Char.isDigit then 2
    else 3
  | none => 4

/-- The segmentation input of C8. -/
def c8Input : String :=
  "1. A lamp comprising a base.\n\n2. The lamp of claim 1, further comprising a diffuser."

/-- An environment token long enough for `ensure_token` to accept. -/
def envTok20 : Option String := some "aaaaaaaaaaaaaaaaaaaaaaaa"

/-- Response sequence [timeout, 500, 200] of C1. -/
def seqT500_200 : List Resp :=
  [Resp.timeout, Resp.http 500 false "", Resp.http 200 false "FAM"]

/-- Response sequence [timeout, 500, 500] of C1. -/
def seqT500_500 : List Resp :=
  [Resp.timeout, Resp.http 500 false "", Resp.http 500 false ""]

/-- Response sequence of C2: an invalid-token 401, two transient 500s,
then a 200 that a budget-preserving refresh would have reached. -/
def seqC2 : List Resp :=
  [Resp.http 401 true "invalid_access_token", Resp.http 500 false "",
   Resp.http 500 false "", Resp.http 200 false "FAM"]

/-- A successful OPS claims response. -/
def xresp200 : XResp := ⟨200, "text/xml", "<claims/>"⟩

/-- A lineage-complete GOOGLE extraction record. -/
def gateGoodRow : GRow :=
  { claims_source := some "GOOGLE"
    google_seed_publication := some "US2021372574A1"
    google_resolved_publication := some "US20210372574A1"
    google_status := some "GOOGLE_OK_ALT0"
    claims_google_text_path := some "cache/claims_google/US.2021372574.A1.txt"
    governance_flags := some ["THIRD_PARTY_SOURCE", "COVERAGE_FALLBACK"]
    selected_source := some "GOOGLE_FALLBACK_SEED" }

/-- The same record with the `COVERAGE_FALLBACK` governance flag
removed. -/
def gateBadRow : GRow := { gateGoodRow with governance_flags := some ["THIRD_PARTY_SOURCE"] }

/-- A primary-sourced record, outside the gate's scope. -/
def gateOpsRow : GRow :=
  { gateGoodRow with claims_source := some "OPS", governance_flags := some [] }

/-- Filesystem oracle for gate runs without `--check-files`. -/
def gateNoFS : String → Bool := fun _ => false

/-- The C3 failing input: an HTTP-200 page whose title is a consent
interstitial indicator, with an empty first heading and no body
markers, yet carrying extractable claims text. -/
def consentPage : GPage :=
  { title := "Before you continue"
    h1 := ""
    html := "<html><head><title>Before you continue</title></head><body><section itemprop=claims>1. A lamp comprising a base, and a shade.</section></body></html>"
    claims := "1. A lamp comprising a base, and a shade."
    description := "" }

/-! ### Character facts -/

theorem toNat_le_of_isDigit {c : Char} (h : c.isDigit = true) :
    48 ≤ c.toNat ∧ c.toNat ≤ 57 := by
  unfold Char.isDigit at h
  simp only [Bool.and_eq_true, decide_eq_true_eq] at h
  exact ⟨UInt32.le_toNat_of_le (by decide) h.1, UInt32.toNat_le_of_le (by decide) h.2⟩

theorem toNat_of_upperAZ {c : Char} (h : isUpperAZ c = true) :
    65 ≤ c.toNat ∧ c.toNat ≤ 90 := by
  unfold isUpperAZ at h
  simp only [Bool.and_eq_true, decide_eq_true_eq, Char.le_def] at h
  exact ⟨UInt32.le_toNat_of_le (by decide) h.1, UInt32.toNat_le_of_le (by decide) h.2⟩

theorem toUpper_of_toNat_lt {c : Char} (h : c.toNat < 97) : c.toUpper = c := by
  unfold Char.toUpper
  rw [if_neg]
  omega

theorem toUpper_of_isDigit {c : Char} (h : c.isDigit = true) : c.toUpper = c :=
  toUpper_of_toNat_lt (by have := toNat_le_of_isDigit h; omega)

theorem toUpper_of_upperAZ {c : Char} (h : isUpperAZ c = true) : c.toUpper = c :=
  toUpper_of_toNat_lt (by have := toNat_of_upperAZ h; omega)

theorem toNat_le_of_pySpace {c : Char} (h : isPySpace c = true) : c.toNat ≤ 32 := by
  unfold isPySpace at h
  simp only [Bool.or_eq_true, decide_eq_true_eq] at h
  rcases h with ((((h | h) | h) | h) | h) | h <;> subst h <;> decide

theorem not_pySpace_of_isDigit {c : Char} (h : c.isDigit = true) : isPySpace c = false := by
  cases hc : isPySpace c
  · rfl
  · have := toNat_le_of_pySpace hc
    have := toNat_le_of_isDigit h
    omega

theorem not_pySpace_of_upperAZ {c : Char} (h : isUpperAZ c = true) : isPySpace c = false := by
  cases hc : isPySpace c
  · rfl
  · have := toNat_le_of_pySpace hc
    have := toNat_of_upperAZ h
    omega

theorem ne_space_of_isDigit {c : Char} (h : c.isDigit = true) : c ≠ ' ' := by
  intro hc
  subst hc
  exact absurd h (by decide)

theorem ne_space_of_upperAZ {c : Char} (h : isUpperAZ c = true) : c ≠ ' ' := by
  intro hc
  subst hc
  exact absurd h (by decide)

theorem not_digit_of_upperAZ {c : Char} (h : isUpperAZ c = true) : c.isDigit = false := by
  cases hd : c.isDigit
  · rfl
  · have := toNat_le_of_isDigit hd
    have := toNat_of_upperAZ h
    omega

/-- The combined fixedness condition used by `normPub` preservation. -/
def normFixed (c : Char) : Prop :=
  c.toUpper = c ∧ isPySpace c = false ∧ c ≠ ' '

theorem normFixed_of_isDigit {c : Char} (h : c.isDigit = true) : normFixed c :=
  ⟨toUpper_of_isDigit h, not_pySpace_of_isDigit h, ne_space_of_isDigit h⟩

theorem normFixed_of_upperAZ {c : Char} (h : isUpperAZ c = true) : normFixed c :=
  ⟨toUpper_of_upperAZ h, not_pySpace_of_upperAZ h, ne_space_of_upperAZ h⟩

/-! ### List facts -/

theorem dropWhile_eq_self_of_all {p : Char → Bool} {cs : List Char}
    (h : ∀ c ∈ cs, p c = false) : cs.dropWhile p = cs := by
  cases cs with
  | nil => rfl
  | cons a t => simp [List.dropWhile_cons, h a (List.mem_cons_self a t)]

theorem map_eq_self_of_all {f : Char → Char} {cs : List Char}
    (h : ∀ c ∈ cs, f c = c) : cs.map f = cs := by
  induction cs with
  | nil => rfl
  | cons a t ih =>
    simp only [List.map_cons, h a (List.mem_cons_self a t)]
    rw [ih (fun c hc => h c (List.mem_cons_of_mem a hc))]

theorem pyStrip_eq_self_of_all {cs : List Char}
    (h : ∀ c ∈ cs, isPySpace c = false) : pyStrip cs = cs := by
  unfold pyStrip
  rw [dropWhile_eq_self_of_all h]
  rw [dropWhile_eq_self_of_all (fun c hc => h c (List.mem_reverse.mp hc))]
  exact List.reverse_reverse cs

/-- `normPubChars` leaves a string of digits, uppercase letters and
other normalization-fixed characters unchanged. -/
theorem normPubChars_eq_self_of_all {cs : List Char}
    (h : ∀ c ∈ cs, normFixed c) : normPubChars cs = cs := by
  unfold normPubChars pyUpper
  rw [pyStrip_eq_self_of_all (fun c hc => (h c hc).2.1)]
  rw [map_eq_self_of_all (fun c hc => (h c hc).1)]
  rw [List.filter_eq_self.mpr]
  intro a ha
  exact decide_eq_true (h a ha).2.2

theorem takeWhile_all_append {p : Char → Bool} {xs : List Char}
    (h : ∀ c ∈ xs, p c = true) {k : Char} (hk : p k = false) (ys : List Char) :
    (xs ++ k :: ys).takeWhile p = xs := by
  induction xs with
  | nil => simp [List.takeWhile_cons, hk]
  | cons a t ih =>
    simp only [List.cons_append, List.takeWhile_cons, h a (List.mem_cons_self a t)]
    simp only [if_true]
    rw [ih (fun c hc => h c (List.mem_cons_of_mem a hc))]

theorem dropWhile_all_append {p : Char → Bool} {xs : List Char}
    (h : ∀ c ∈ xs, p c = true) {k : Char} (hk : p k = false) (ys : List Char) :
    (xs ++ k :: ys).dropWhile p = k :: ys := by
  induction xs with
  | nil => simp [List.dropWhile_cons, hk]
  | cons a t ih =>
    simp only [List.cons_append, List.dropWhile_cons, h a (List.mem_cons_self a t)]
    simp only [if_true]
    exact ih (fun c hc => h c (List.mem_cons_of_mem a hc))

theorem mem_dedupeKeep {x : String} : ∀ {l seen : List String},
    x ∈ dedupeKeep l seen → x ∈ l := by
  intro l
  induction l with
  | nil => intro seen h; simp [dedupeKeep] at h
  | cons a t ih =>
    intro seen h
    unfold dedupeKeep at h
    split at h
    · exact List.mem_cons_of_mem a (ih h)
    · rcases List.mem_cons.mp h with h | h
      · exact h ▸ List.mem_cons_self a t
      · exact List.mem_cons_of_mem a (ih h)

theorem mem_setDedup {x : String} : ∀ {l seen : List String},
    x ∈ setDedup l seen → x ∈ l := by
  intro l
  induction l with
  | nil => intro seen h; simp [setDedup] at h
  | cons a t ih =>
    intro seen h
    unfold setDedup at h
    split at h
    · exact List.mem_cons_of_mem a (ih h)
    · rcases List.mem_cons.mp h with h | h
      · exact h ▸ List.mem_cons_self a t
      · exact List.mem_cons_of_mem a (ih h)

theorem dedupeKeep_sublist : ∀ (l seen : List String),
    (dedupeKeep l seen).Sublist l := by
  intro l
  induction l with
  | nil => intro seen; exact List.Sublist.refl []
  | cons a t ih =>
    intro seen
    unfold dedupeKeep
    split
    · exact List.Sublist.cons a (ih seen)
    · exact List.Sublist.cons₂ a (ih (a :: seen))

/-! ### The sort key is a total preorder -/

theorem lexLt_trichotomy : ∀ a b : List Char,
    lexLt a b = true ∨ a = b ∨ lexLt b a = true := by
  intro a
  induction a with
  | nil =>
    intro b
    cases b with
    | nil => right; left; rfl
    | cons y ys => left; rfl
  | cons x xs ih =>
    intro b
    cases b with
    | nil => right; right; rfl
    | cons y ys =>
      rcases lt_trichotomy x y with hxy | hxy | hxy
      · left; simp [lexLt, hxy]
      · subst hxy
        rcases ih ys with h | h | h
        · left; simp [lexLt, h]
        · right; left; rw [h]
        · right; right; simp [lexLt, h]
      · right; right; simp [lexLt, hxy]

theorem lexLt_asymm : ∀ a b : List Char, lexLt a b = true → lexLt b a = false := by
  intro a
  induction a with
  | nil =>
    intro b h
    cases b with
    | nil => exact absurd h (by decide)
    | cons y ys => rfl
  | cons x xs ih =>
    intro b h
    cases b with
    | nil => simp [lexLt] at h
    | cons y ys =>
      unfold lexLt at h ⊢
      by_cases hxy : x < y
      · have hyx : ¬ y < x := fun hc => absurd hxy (not_lt_of_gt hc)
        simp [hxy, hyx]
      · by_cases hyx : y < x
        · simp [hxy, hyx] at h
        · simp [hxy, hyx] at h ⊢
          exact ih ys h

theorem lexLt_trans : ∀ a b c : List Char,
    lexLt a b = true → lexLt b c = true → lexLt a c = true := by
  intro a
  induction a with
  | nil =>
    intro b c hab hbc
    cases b with
    | nil => simp [lexLt] at hab
    | cons y ys =>
      cases c with
      | nil => simp [lexLt] at hbc
      | cons z zs => rfl
  | cons x xs ih =>
    intro b c hab hbc
    cases b with
    | nil => simp [lexLt] at hab
    | cons y ys =>
      cases c with
      | nil => simp [lexLt] at hbc
      | cons z zs =>
        unfold lexLt at hab hbc ⊢
        by_cases hxy : x < y
        · by_cases hyz : y < z
          · simp [lt_trans hxy hyz]
          · by_cases hzy : z < y
            · simp [hyz, hzy] at hbc
            · have hyez : y = z := le_antisymm (not_lt.mp hzy) (not_lt.mp hyz)
              subst hyez
              simp [hxy]
        · by_cases hyx : y < x
          · simp [hxy, hyx] at hab
          · have hxey : x = y := le_antisymm (not_lt.mp hyx) (not_lt.mp hxy)
            subst hxey
            by_cases hyz : x < z
            · simp [hyz]
            · by_cases hzy : z < x
              · simp [hyz, hzy] at hbc
              · simp [hxy, hyx] at hab
                simp [hyz, hzy] at hbc ⊢
                exact ih ys zs hab hbc

theorem lexLe_total (a b : List Char) : lexLe a b = true ∨ lexLe b a = true := by
  unfold lexLe
  cases h : lexLt b a
  · left; rfl
  · right
    rw [lexLt_asymm b a h]
    rfl

theorem lexLe_trans {a b c : List Char}
    (hab : lexLe a b = true) (hbc : lexLe b c = true) : lexLe a c = true := by
  unfold lexLe at hab hbc ⊢
  simp only [Bool.not_eq_true'] at hab hbc ⊢
  by_contra hca
  simp only [Bool.not_eq_false] at hca
  rcases lexLt_trichotomy a b with h | h | h
  · have := lexLt_trans c a b hca h
    rw [this] at hbc
    simp at hbc
  · subst h
    rw [hca] at hbc
    simp at hbc
  · rw [h] at hab
    simp at hab

theorem keyLe_total (x y : Nat × String) : keyLe x y = true ∨ keyLe y x = true := by
  unfold keyLe
  rcases Nat.lt_trichotomy x.1 y.1 with h | h | h
  · left; simp [h]
  · rcases lexLe_total x.2.data y.2.data with hl | hl
    · left; simp [h, hl]
    · right; simp [h.symm, hl]
  · right; simp [h]

theorem keyLe_trans {x y z : Nat × String}
    (hxy : keyLe x y = true) (hyz : keyLe y z = true) : keyLe x z = true := by
  unfold keyLe at hxy hyz ⊢
  simp only [Bool.or_eq_true, Bool.and_eq_true, decide_eq_true_eq] at hxy hyz ⊢
  rcases hxy with h | ⟨he, hl⟩ <;> rcases hyz with h2 | ⟨he2, hl2⟩
  · left; omega
  · left; omega
  · left; omega
  · right; exact ⟨he.trans he2, lexLe_trans hl hl2⟩

theorem scoreLe_total (w : String) (p : List String) (a b : String) :
    scoreLe w p a b ∨ scoreLe w p b a :=
  keyLe_total (score w p a) (score w p b)

theorem scoreLe_trans (w : String) (p : List String) {a b c : String}
    (hab : scoreLe w p a b) (hbc : scoreLe w p b c) : scoreLe w p a c :=
  keyLe_trans hab hbc

instance (w : String) (p : List String) : IsTotal String (scoreLe w p) :=
  ⟨scoreLe_total w p⟩

instance (w : String) (p : List String) : IsTrans String (scoreLe w p) :=
  ⟨fun _ _ _ => scoreLe_trans w p⟩

/-! ### Shape of the candidate list for a bare-letter seed -/

theorem split_dotted_empty : split_dotted "" = none := by decide

theorem dedupeKeep_cons_ne {x : String} {xs seen : List String}
    (hx : x ≠ "") (hs : x ∉ seen) :
    dedupeKeep (x :: xs) seen = x :: dedupeKeep xs (x :: seen) := by
  simp only [dedupeKeep]
  simp [hx, hs]

/-- Under a bare-letter seed kind, `build_try_list` is the seed's
dotted form followed by the deduplicated sort of the filtered family
members. -/
theorem build_try_list_bare {proc : List String} {cand : String}
    {cc n k : String}
    (hsplit : split_dotted (seed_dotted cand) = some (cc, n, k))
    (hk : is_kind_letter_only k = true) :
    build_try_list proc cand =
      seed_dotted cand ::
        dedupeKeep
          (List.insertionSort
            (scoreLe (kind_letter k)
              (if kind_letter k = "A" then ["1", "2"] else ["1", "2", "3"]))
            (setDedup
              ((proc.filterMap to_dotted_from_concat).filter (fun d =>
                match split_dotted d with
                | none => false
                | some (cc2, _n2, kind2) =>
                  cc2 = cc && kind_letter kind2 = kind_letter k &&
                    ! is_kind_letter_only kind2)) []))
          [seed_dotted cand] := by
  have hne : seed_dotted cand ≠ "" := by
    intro h
    rw [h, split_dotted_empty] at hsplit
    exact Option.noConfusion hsplit
  unfold build_try_list
  simp only [hne, ne_eq, not_false_iff, if_true, hsplit, hk, ite_true]
  rw [List.singleton_append, dedupeKeep_cons_ne hne (by simp)]

/-- C5: for every seed identifier whose kind code is a bare letter and
for every family-member list, the candidate list built by
`build_try_list` has the seed's own canonical dotted form as its first
entry, and every entry (the seed included) carries the seed's
jurisdiction and kind letter — no family member with a different
jurisdiction or kind letter is ever included. -/
theorem c5_bare_seed_candidates :
    ∀ (proc : List String) (cand : String) (cc n k : String),
      split_dotted (seed_dotted cand) = some (cc, n, k) →
      is_kind_letter_only k = true →
      (build_try_list proc cand).head? = some (seed_dotted cand) ∧
      ∀ e ∈ build_try_list proc cand, ∃ cc2 n2 k2,
        split_dotted e = some (cc2, n2, k2) ∧ cc2 = cc ∧
          kind_letter k2 = kind_letter k := by
  intro proc cand cc n k hsplit hk
  rw [build_try_list_bare hsplit hk]
  refine ⟨rfl, ?_⟩
  intro e he
  rcases List.mem_cons.mp he with he | he
  · subst he
    exact ⟨cc, n, k, hsplit, rfl, rfl⟩
  · have h1 := mem_dedupeKeep he
    have h2 := (List.perm_insertionSort _ _).mem_iff.mp h1
    have h3 := mem_setDedup h2
    have h4 := (List.mem_filter.mp h3).2
    cases hse : split_dotted e with
    | none =>
      simp only [hse] at h4
      exact absurd h4 (by decide)
    | some triple =>
      obtain ⟨cc2, n2, k2⟩ := triple
      simp only [hse, Bool.and_eq_true, decide_eq_true_eq] at h4
      exact ⟨cc2, n2, k2, rfl, h4.1.1, h4.1.2⟩

/-- C5 witness: the theorem applied to the seed `EP123B` with family
members `EP5B3` (kept) and `US5B2` (foreign jurisdiction, dropped). -/
theorem c5_bare_seed_candidates_witness :
    (build_try_list ["EP5B3", "US5B2"] "EP123B").head? = some (seed_dotted "EP123B") :=
  (c5_bare_seed_candidates ["EP5B3", "US5B2"] "EP123B" "EP" "123" "B"
    (by decide) (by decide)).1

/-- C6 counterexample: the claim's ranking — suffix "1" above "2" above
every other numeric suffix — fails on the code.  For the bare seed
`EP123B` (kind letter B, so the preferred-suffix list is
["1","2","3"]), the member `EP.5.B3` (suffix 3, claim rank 2) is
placed before `EP.9.B2` (suffix 2, claim rank 1), because the code
scores suffixes "2" and "3" identically and breaks the tie by the
lexicographically smaller docdb string. -/
theorem c6_spec_rank_counterexample :
    build_try_list ["EP5B3", "EP9B2"] "EP123B" = ["EP.123.B", "EP.5.B3", "EP.9.B2"] ∧
    claimSuffixRank "EP.5.B3" = 2 ∧ claimSuffixRank "EP.9.B2" = 1 ∧
    ¬ List.Pairwise (fun a b => claimSuffixRank a ≤ claimSuffixRank b)
      ((build_try_list ["EP5B3", "EP9B2"] "EP123B").tail) := by
  refine ⟨by decide, by decide, by decide, ?_⟩
  intro hp
  rw [(by decide :
    build_try_list ["EP5B3", "EP9B2"] "EP123B"
      = ["EP.123.B", "EP.5.B3", "EP.9.B2"])] at hp
  simp only [List.tail_cons, List.pairwise_cons] at hp
  have := hp.1 "EP.9.B2" (by simp)
  revert this
  decide

/-- C6 amended: the family-fallback candidates appended after the seed
are ordered by the code's preference score `score`: suffix "1" scores
0; the other preferred suffixes ("2" for a seed kind letter A, "2" and
"3" for any other letter) score 1; every other suffix scores 5; ties
are broken by lexicographic comparison of the dotted identifier. -/
theorem c6_score_order_amended :
    ∀ (proc : List String) (cand : String) (cc n k : String),
      split_dotted (seed_dotted cand) = some (cc, n, k) →
      is_kind_letter_only k = true →
      List.Pairwise
        (scoreLe (kind_letter k)
          (if kind_letter k = "A" then ["1", "2"] else ["1", "2", "3"]))
        ((build_try_list proc cand).tail) := by
  intro proc cand cc n k hsplit hk
  rw [build_try_list_bare hsplit hk]
  simp only [List.tail_cons]
  exact List.Pairwise.sublist (dedupeKeep_sublist _ _)
    (List.sorted_insertionSort _ _)

/-- C6 amended witness: the order property at the `EP123B` seed. -/
theorem c6_score_order_amended_witness :
    List.Pairwise (scoreLe "B" ["1", "2", "3"])
      ((build_try_list ["EP5B3", "EP9B2"] "EP123B").tail) := by
  have h := c6_score_order_amended ["EP5B3", "EP9B2"] "EP123B" "EP" "123" "B"
    (by decide) (by decide)
  simpa using h

/-- A GOOGLE row lacking a required governance flag fails validation. -/
theorem validate_google_row_flag_missing {r : GRow} {cf : Bool}
    {fe : String → Bool} (hg : r.claims_source = some "GOOGLE")
    (hflags : r.governance_flags = none ∨
      ∃ fs, r.governance_flags = some fs ∧
        ("THIRD_PARTY_SOURCE" ∉ fs ∨ "COVERAGE_FALLBACK" ∉ fs)) :
    (validate_google_row r cf fe).1 = false := by
  have hre : (match r.governance_flags with
      | none => ["governance_flags is not an array[str]"]
      | some flags =>
        if List.filter (fun f => ! flags.contains f) REQUIRED_FLAGS_sorted ≠ [] then
          ["Missing governance_flags: " ++
            String.intercalate "," (List.filter (fun f => ! flags.contains f) REQUIRED_FLAGS_sorted)]
        else []) ≠ ([] : List String) := by
    rcases hflags with hnone | ⟨fs, hfs, hmiss⟩
    · rw [hnone]; simp
    · rw [hfs]
      have hmem : List.filter (fun f => ! fs.contains f) REQUIRED_FLAGS_sorted ≠ [] := by
        rcases hmiss with hm | hm
        · have hm1 : "THIRD_PARTY_SOURCE"
              ∈ List.filter (fun f => ! fs.contains f) REQUIRED_FLAGS_sorted :=
            List.mem_filter.mpr ⟨by simp [REQUIRED_FLAGS_sorted], by simp [hm]⟩
          exact List.ne_nil_of_mem hm1
        · have hm1 : "COVERAGE_FALLBACK"
              ∈ List.filter (fun f => ! fs.contains f) REQUIRED_FLAGS_sorted :=
            List.mem_filter.mpr ⟨by simp [REQUIRED_FLAGS_sorted], by simp [hm]⟩
          exact List.ne_nil_of_mem hm1
      simp only [ne_eq, hmem, not_false_iff, if_true, ite_true]
      intro h
      exact List.noConfusion h
  unfold validate_google_row
  rw [if_neg (by simp [hg])]
  simp only [List.isEmpty_eq_false, ne_eq, List.append_eq_nil]
  intro hempty
  exact hre hempty.1.1.2

/-- C4: the Lineage Gate fails (exit code 1, nonzero) on any batch
containing a GOOGLE-sourced record that lacks one of the required
governance flags; it passes an otherwise-identical batch in which the
flag is present; and it passes trivially on a batch containing zero
GOOGLE-sourced records. -/
theorem c4_lineage_gate :
    (∀ (rows : List GRow) (cf : Bool) (fe : String → Bool) (r : GRow),
      r ∈ rows → r.claims_source = some "GOOGLE" →
      (r.governance_flags = none ∨
        ∃ fs, r.governance_flags = some fs ∧
          ("THIRD_PARTY_SOURCE" ∉ fs ∨ "COVERAGE_FALLBACK" ∉ fs)) →
      lineage_gate rows cf fe ≠ 0) ∧
    lineage_gate [gateBadRow] false gateNoFS = 1 ∧
    lineage_gate [gateGoodRow] false gateNoFS = 0 ∧
    (∀ (rows : List GRow) (cf : Bool) (fe : String → Bool),
      (∀ r ∈ rows, r.claims_source ≠ some "GOOGLE") →
      lineage_gate rows cf fe = 0) := by
  refine ⟨?_, by decide, by decide, ?_⟩
  · intro rows cf fe r hmem hg hflags
    have hval : (validate_google_row r cf fe).1 = false :=
      validate_google_row_flag_missing hg hflags
    unfold lineage_gate
    have hmemf : r ∈ rows.filter (fun x => x.claims_source = some "GOOGLE") :=
      List.mem_filter.mpr ⟨hmem, by simp [hg]⟩
    rw [if_neg (by
      rw [List.isEmpty_eq_true]
      exact List.ne_nil_of_mem hmemf)]
    rw [if_pos (List.any_eq_true.mpr ⟨r, hmemf, by rw [hval]; rfl⟩)]
    decide
  · intro rows cf fe hnone
    unfold lineage_gate
    rw [if_pos]
    simp only [List.isEmpty_eq_true, List.filter_eq_nil_iff]
    intro r hr
    simpa using hnone r hr

/-- C4 witness: the gate theorem applied to the one-row bad batch and
to a batch whose only record is primary-sourced. -/
theorem c4_lineage_gate_witness :
    lineage_gate [gateBadRow] false gateNoFS ≠ 0 ∧
    lineage_gate [gateOpsRow] false gateNoFS = 0 :=
  ⟨c4_lineage_gate.1 [gateBadRow] false gateNoFS gateBadRow
      (List.mem_singleton.mpr rfl) rfl
      (Or.inr ⟨["THIRD_PARTY_SOURCE"], rfl, Or.inr (by decide)⟩),
    c4_lineage_gate.2.2.2 [gateOpsRow] false gateNoFS (by decide)⟩

/-- C3: the claim — a 2xx page whose title, heading, or body contains
a consent/robot indicator must fail with reason `CONSENT_OR_ROBOT_PAGE`
and never be recorded as a success — fails on the code at
`consentPage`: the page title is the indicator phrase "Before you
continue", yet `looks_like_consent_or_robot` ignores the title it
computes (only the h1 text and two body markers are checked), so the
fetch succeeds and a success record is written.  This evaluates the
code at the failing input. -/
theorem c3_consent_title_ignored :
    strContains (String.mk (pyLower consentPage.title.data)) "before you continue" = true ∧
    looks_like_consent_or_robot consentPage.title consentPage.h1 consentPage.html = false ∧
    process_google_page consentPage = ("OK", "") := by
  refine ⟨by decide, by decide, by decide⟩

/-- C8: segmenting
`"1. A lamp comprising a base.\n\n2. The lamp of claim 1, further comprising a diffuser."`
yields the first claim `"A lamp comprising a base."` with the leading
`"1."` marker removed, a claim map with exactly the entries numbered 1
and 2 in that order, and the canonical claim set joining the two bodies
in ascending numeric order. -/
theorem c8_segmentation_example :
    extract_claim1_and_claimset c8Input
      = ("A lamp comprising a base.",
         "A lamp comprising a base.\n\nThe lamp of claim 1, further comprising a diffuser.",
         ⟨"NUMBERED", "HIGH", none⟩) ∧
    (parse_claims_to_map c8Input).claims_by_no
      = [(1, "A lamp comprising a base."),
         (2, "The lamp of claim 1, further comprising a diffuser.")] := by
  refine ⟨by decide, by decide⟩

/-- Invariant of the `fetch_family_docdb` retry loop when the cache
starts empty: the loop never reports a cache hit, and it either fails
with the cache still empty or succeeds having cached exactly the
returned payload. -/
theorem familyLoop_cache_spec : ∀ (left attempt : Nat) (fresh : List String)
    (resps : List Resp) (tok ts : String),
    (familyLoop left attempt fresh resps tok ts none).1.cache_hit = false ∧
    (((familyLoop left attempt fresh resps tok ts none).1.raw = none ∧
      (familyLoop left attempt fresh resps tok ts none).2 = none) ∨
     (∃ b, (familyLoop left attempt fresh resps tok ts none).1.raw = some b ∧
       (familyLoop left attempt fresh resps tok ts none).2
         = some (CacheEntry.valid b))) := by
  intro left
  induction left with
  | zero => intro attempt fresh resps tok ts; exact ⟨rfl, Or.inl ⟨rfl, rfl⟩⟩
  | succ n ih =>
    intro attempt fresh resps tok ts
    cases resps with
    | nil => simpa only [familyLoop] using ih (attempt + 1) fresh [] tok ts
    | cons r rest =>
      cases r with
      | timeout => simpa only [familyLoop] using ih (attempt + 1) fresh rest tok ts
      | http st inv body =>
        simp only [familyLoop]
        split
        · exact ih (attempt + 1) fresh.tail rest (fresh.headD "tok") "refreshed"
        · split
          · exact ⟨rfl, Or.inr ⟨body, rfl, rfl⟩⟩
          · split
            · exact ih (attempt + 1) fresh rest tok ts
            · exact ⟨rfl, Or.inl ⟨rfl, rfl⟩⟩

/-- C1: the primary fetchers cache only validated successes, and the
retrying fetcher retries transient failures up to the attempt ceiling:
starting from an empty cache, a failed `fetch_family_docdb` leaves no
cache entry and a cache entry implies the fetch returned exactly the
cached payload; `fetch_claims_xml` likewise caches nothing on failure.
Concretely, [timeout, 500, 200] succeeds on the third and last attempt
and caches the payload, while [timeout, 500, 500] exhausts the retry
budget of `MAX_RETRY = 3` and leaves the cache empty. -/
theorem c1_cache_only_on_success :
    (∀ (env : Option String) (fresh : List String) (resps : List Resp),
      ((fetch_family_docdb none env fresh resps).1.raw = none →
        (fetch_family_docdb none env fresh resps).2 = none) ∧
      (∀ e, (fetch_family_docdb none env fresh resps).2 = some e →
        ∃ b, e = CacheEntry.valid b ∧
          (fetch_family_docdb none env fresh resps).1.raw = some b)) ∧
    (∀ r : XResp, (fetch_claims_xml none r).1.1 = none →
      (fetch_claims_xml none r).2 = none) ∧
    fetch_family_docdb none envTok20 [] seqT500_200
      = (⟨some "FAM", false, 200, 2, "env"⟩, some (CacheEntry.valid "FAM")) ∧
    fetch_family_docdb none envTok20 [] seqT500_500
      = (⟨none, false, -1, 3, "env"⟩, none) := by
  refine ⟨?_, ?_, by decide, by decide⟩
  · intro env fresh resps
    rcases hE : ensure_token env fresh with ⟨tok, fresh'⟩
    simp only [fetch_family_docdb, hE]
    rcases (familyLoop_cache_spec MAX_RETRY 1 fresh' resps tok "env").2 with
      ⟨h1, h2⟩ | ⟨b, h1, h2⟩
    · exact ⟨fun _ => h2, fun e he => absurd (h2 ▸ he) (by simp)⟩
    · refine ⟨fun hn => absurd (h1 ▸ hn) (by simp), fun e he => ?_⟩
      rw [h2] at he
      exact ⟨b, (Option.some_injective _ he).symm, h1⟩
  · intro r
    unfold fetch_claims_xml
    split
    · intro h; exact absurd h (by simp)
    · split
      · intro _; rfl
      · split
        · intro _; rfl
        · split
          · intro _; rfl
          · split
            · intro _; rfl
            · split
              · intro _; rfl
              · intro h; exact absurd h (by simp)

/-- C1 witness: the no-cache-on-failure direction applied at a 404. -/
theorem c1_cache_only_on_success_witness :
    (fetch_family_docdb none envTok20 [] [Resp.http 404 false ""]).2 = none :=
  (c1_cache_only_on_success.1 envTok20 [] [Resp.http 404 false ""]).1 (by decide)

/-- C2: evaluation at the failing input.  With `MAX_RETRY = 3`, the
response sequence [invalid-token 401, 500, 500, 200] fails with the
budget exhausted — the forced refresh consumed one of the three loop
attempts (the Python `continue` advances the loop variable despite the
comment saying the retry is not counted), so only two transient
retries remain and the reachable 200 is never requested.  By contrast,
[500, 500, 200] alone succeeds within the same budget. -/
theorem c2_refresh_consumes_budget :
    fetch_family_docdb none envTok20 ["fresh-token-0123456789"] seqC2
      = (⟨none, false, -1, 3, "refreshed"⟩, none) ∧
    fetch_family_docdb none envTok20 []
      [Resp.http 500 false "", Resp.http 500 false "", Resp.http 200 false "FAM"]
      = (⟨some "FAM", false, 200, 2, "env"⟩, some (CacheEntry.valid "FAM")) := by
  refine ⟨by decide, by decide⟩

/-- C9 counterexample: `fetch_claims_xml` returns a cached entry's
contents verbatim as data with status `OK(CACHE)` and leaves the entry
in place — no validation, no deletion — so a corrupted entry (here a
payload no XML parser accepts) is surfaced to the caller, refuting the
claim that corrupted entries are never returned as data. -/
theorem c9_corrupt_cache_returned_counterexample :
    (fetch_claims_xml (some "##corrupt##") xresp200).1
      = (some "##corrupt##", "OK(CACHE)") ∧
    (fetch_claims_xml (some "##corrupt##") xresp200).2 = some "##corrupt##" := by
  refine ⟨by decide, by decide⟩

/-- C9 amended: the family fetcher (`fetch_family_docdb`) self-heals —
a corrupted cache entry is deleted and the fetch proceeds exactly as a
cache miss, never reporting a hit and never leaving the corrupted
entry behind — while the claims fetcher (`fetch_claims_xml`) returns
any cached entry verbatim with status `OK(CACHE)` without validation
or deletion. -/
theorem c9_selfheal_amended :
    (∀ (env : Option String) (fresh : List String) (resps : List Resp),
      fetch_family_docdb (some CacheEntry.corrupted) env fresh resps
        = fetch_family_docdb none env fresh resps ∧
      (fetch_family_docdb (some CacheEntry.corrupted) env fresh resps).2
        ≠ some CacheEntry.corrupted ∧
      (fetch_family_docdb (some CacheEntry.corrupted) env fresh resps).1.cache_hit
        = false) ∧
    (∀ (t : String) (r : XResp),
      (fetch_claims_xml (some t) r).1 = (some t, "OK(CACHE)") ∧
      (fetch_claims_xml (some t) r).2 = some t) := by
  refine ⟨?_, fun t r => ⟨rfl, rfl⟩⟩
  intro env fresh resps
  refine ⟨rfl, ?_, ?_⟩
  · rcases hE : ensure_token env fresh with ⟨tok, fresh'⟩
    simp only [fetch_family_docdb, hE]
    rcases (familyLoop_cache_spec MAX_RETRY 1 fresh' resps tok "env").2 with
      ⟨_, h2⟩ | ⟨b, _, h2⟩
    · rw [h2]; simp
    · rw [h2]; simp
  · rcases hE : ensure_token env fresh with ⟨tok, fresh'⟩
    simp only [fetch_family_docdb, hE]
    exact (familyLoop_cache_spec MAX_RETRY 1 fresh' resps tok "env").1

/-- C9 amended witness: the corrupted-cache run at a concrete input
equals the cache-miss run. -/
theorem c9_selfheal_amended_witness :
    fetch_family_docdb (some CacheEntry.corrupted) envTok20 [] seqT500_200
      = fetch_family_docdb none envTok20 [] seqT500_200 :=
  (c9_selfheal_amended.1 envTok20 [] seqT500_200).1

/-! ### Facts about the US zero-padding variant generator -/

theorem kindTail_sound {tl kind : List Char} (h : kindTail tl = some kind) :
    kind = tl ∧ ∃ k, isUpperAZ k = true ∧
      (tl = [k] ∨ ∃ d, tl = [k, d] ∧ d.isDigit = true) := by
  cases tl with
  | nil => exact Option.noConfusion ((rfl : kindTail [] = none) ▸ h)
  | cons k tl2 =>
    cases tl2 with
    | nil =>
      have he : kindTail [k] = if isUpperAZ k then some [k] else none := rfl
      rw [he] at h
      split at h
      · have hk := (Option.some.inj h).symm
        subst hk
        exact ⟨rfl, k, by assumption, Or.inl rfl⟩
      · exact absurd h (by simp)
    | cons d tl3 =>
      cases tl3 with
      | nil =>
        have he : kindTail [k, d]
            = if isUpperAZ k && d.isDigit then some [k, d] else none := rfl
        rw [he] at h
        split at h
        · have hk := (Option.some.inj h).symm
          subst hk
          rename_i hcond
          simp only [Bool.and_eq_true] at hcond
          exact ⟨rfl, k, hcond.1, Or.inr ⟨d, rfl, hcond.2⟩⟩
        · exact absurd h (by simp)
      | cons e tl4 =>
        exact Option.noConfusion ((rfl : kindTail (k :: d :: e :: tl4) = none) ▸ h)

theorem usTailSplit_sound {rest mid kind : List Char}
    (h : usTailSplit rest = some (mid, kind)) :
    mid = rest.takeWhile Char.isDigit ∧ mid ≠ [] ∧
      kindTail (rest.dropWhile Char.isDigit) = some kind := by
  unfold usTailSplit at h
  split at h
  · exact Option.noConfusion h
  · rename_i hne
    cases hk : kindTail (rest.dropWhile Char.isDigit) with
    | none =>
      rw [hk] at h
      exact Option.noConfusion h
    | some kd =>
      rw [hk] at h
      simp only [Option.some_inj, Prod.mk.injEq] at h
      obtain ⟨h1, h2⟩ := h
      subst h1
      subst h2
      exact ⟨rfl, hne, rfl⟩

theorem usMatch_sound {cs year mid kind : List Char}
    (h : usMatch cs = some (year, mid, kind)) :
    ∃ y3 y4, y3.isDigit = true ∧ y4.isDigit = true ∧
      year = ['2', '0', y3, y4] ∧
      cs = 'U' :: 'S' :: '2' :: '0' :: y3 :: y4 :: (mid ++ kind) ∧
      mid ≠ [] ∧ (∀ c ∈ mid, c.isDigit = true) ∧
      ∃ k, isUpperAZ k = true ∧
        (kind = [k] ∨ ∃ d, kind = [k, d] ∧ d.isDigit = true) := by
  unfold usMatch at h
  split at h
  case h_2 => exact Option.noConfusion h
  case h_1 y3 y4 rest =>
    split at h
    case isFalse => exact Option.noConfusion h
    case isTrue hyy =>
      cases hsp : usTailSplit rest with
      | none =>
        rw [hsp] at h
        exact Option.noConfusion h
      | some pr =>
        obtain ⟨mid2, kind2⟩ := pr
        rw [hsp] at h
        simp only [Option.some_inj, Prod.mk.injEq] at h
        obtain ⟨h1, h2, h3⟩ := h
        subst h1
        subst h2
        subst h3
        obtain ⟨hmid, hne, hkt⟩ := usTailSplit_sound hsp
        obtain ⟨hkind, k, hk, hshape⟩ := kindTail_sound hkt
        simp only [Bool.and_eq_true] at hyy
        refine ⟨y3, y4, hyy.1, hyy.2, rfl, ?_, hne, ?_, k, hk, hkind ▸ hshape⟩
        · have hr : rest = mid2 ++ kind2 := by
            rw [hmid, hkind]
            exact (List.takeWhile_append_dropWhile Char.isDigit rest).symm
          rw [hr]
        · intro c hc
          rw [hmid] at hc
          exact List.mem_takeWhile_imp hc

/-- The variant string parses back with the same year and kind and the
serial extended by the single inserted zero. -/
theorem usMatch_variant {y3 y4 : Char} {mid kind : List Char} {k : Char}
    (hy3 : y3.isDigit = true) (hy4 : y4.isDigit = true)
    (hmid : ∀ c ∈ mid, c.isDigit = true)
    (hk : isUpperAZ k = true)
    (hkind : kind = [k] ∨ ∃ d, kind = [k, d] ∧ d.isDigit = true) :
    usMatch ('U' :: 'S' :: '2' :: '0' :: y3 :: y4 :: ('0' :: (mid ++ kind)))
      = some (['2', '0', y3, y4], '0' :: mid, kind) := by
  have hknd : Char.isDigit k = false := not_digit_of_upperAZ hk
  have htw : ('0' :: (mid ++ kind)).takeWhile Char.isDigit = '0' :: mid := by
    rw [List.takeWhile_cons_of_pos (by decide)]
    congr 1
    rcases hkind with rfl | ⟨d, rfl, _⟩
    · exact takeWhile_all_append hmid hknd []
    · exact takeWhile_all_append hmid hknd [d]
  have hdw : ('0' :: (mid ++ kind)).dropWhile Char.isDigit = kind := by
    rw [List.dropWhile_cons_of_pos (by decide)]
    rcases hkind with rfl | ⟨d, rfl, _⟩
    · exact dropWhile_all_append hmid hknd []
    · exact dropWhile_all_append hmid hknd [d]
  have hkt : kindTail kind = some kind := by
    rcases hkind with rfl | ⟨d, rfl, hd⟩
    · show (if isUpperAZ k then some [k] else none) = some [k]
      rw [if_pos hk]
    · show (if isUpperAZ k && d.isDigit then some [k, d] else none) = some [k, d]
      rw [if_pos (by simp [hk, hd])]
  have hsp : usTailSplit ('0' :: (mid ++ kind)) = some ('0' :: mid, kind) := by
    unfold usTailSplit
    rw [htw, hdw, hkt]
    rw [if_neg (by simp)]
  show (if y3.isDigit && y4.isDigit then
      match usTailSplit ('0' :: (mid ++ kind)) with
      | none => none
      | some (mid2, kind2) => some (['2', '0', y3, y4], mid2, kind2)
    else none) = some (['2', '0', y3, y4], '0' :: mid, kind)
  rw [if_pos (by simp [hy3, hy4]), hsp]

/-- Every character of the variant string is fixed by the
`strip().upper().replace(" ", "")` normalization. -/
theorem variant_normFixed {y3 y4 : Char} {mid kind : List Char} {k : Char}
    (hy3 : y3.isDigit = true) (hy4 : y4.isDigit = true)
    (hmid : ∀ c ∈ mid, c.isDigit = true)
    (hk : isUpperAZ k = true)
    (hkind : kind = [k] ∨ ∃ d, kind = [k, d] ∧ d.isDigit = true) :
    ∀ c ∈ 'U' :: 'S' :: '2' :: '0' :: y3 :: y4 :: ('0' :: (mid ++ kind)),
      normFixed c := by
  intro c hc
  simp only [List.mem_cons, List.mem_append] at hc
  rcases hc with rfl | rfl | rfl | rfl | rfl | rfl | rfl | hc | hc
  · exact ⟨by decide, by decide, by decide⟩
  · exact ⟨by decide, by decide, by decide⟩
  · exact ⟨by decide, by decide, by decide⟩
  · exact ⟨by decide, by decide, by decide⟩
  · exact normFixed_of_isDigit hy3
  · exact normFixed_of_isDigit hy4
  · exact ⟨by decide, by decide, by decide⟩
  · exact normFixed_of_isDigit (hmid c hc)
  · rcases hkind with rfl | ⟨d, rfl, hd⟩
    · rcases List.mem_singleton.mp hc with rfl
      exact normFixed_of_upperAZ hk
    · rcases List.mem_cons.mp hc with rfl | hc
      · exact normFixed_of_upperAZ hk
      · rcases List.mem_singleton.mp hc with rfl
        exact normFixed_of_isDigit hd

/-- Produced variant and its parse, for a match with a 6-digit serial. -/
theorem us_insert_zero_variant_eq {p : String} {year mid kind : List Char}
    (husm : usMatch (normPubChars p.data) = some (year, mid, kind))
    (hlen : mid.length = 6) :
    us_insert_zero_variant p
        = some (String.mk ('U' :: 'S' :: year ++ '0' :: (mid ++ kind))) ∧
      usMatch (normPubChars ('U' :: 'S' :: year ++ '0' :: (mid ++ kind)))
        = some (year, '0' :: mid, kind) := by
  obtain ⟨y3, y4, hy3, hy4, hyear, _, _, hmidall, k, hk, hkind⟩ := usMatch_sound husm
  constructor
  · unfold us_insert_zero_variant
    rw [husm]
    show (if mid.length = 6 then
        some (String.mk ('U' :: 'S' :: year ++ '0' :: (mid ++ kind)))
      else none) = _
    rw [if_pos hlen]
  · subst hyear
    have hfix := variant_normFixed hy3 hy4 hmidall hk hkind
    have hnorm : normPubChars
        ('U' :: 'S' :: '2' :: '0' :: y3 :: y4 :: ('0' :: (mid ++ kind)))
        = 'U' :: 'S' :: '2' :: '0' :: y3 :: y4 :: ('0' :: (mid ++ kind)) :=
      normPubChars_eq_self_of_all hfix
    show usMatch (normPubChars
        ('U' :: 'S' :: '2' :: '0' :: y3 :: y4 :: ('0' :: (mid ++ kind)))) = _
    rw [hnorm]
    exact usMatch_variant hy3 hy4 hmidall hk hkind

/-- C7 counterexample: the claim says the zero-padding variant
generator yields exactly one alternate for a 6-digit serial.  The bulk
secondary fetcher's generator `us_insert_zero_variants` (cited by the
claim) pads the 6-digit serial to widths 7 and 8 and therefore yields
two distinct alternates at `US2021372574A1`. -/
theorem c7_two_alternates_counterexample :
    us_insert_zero_variants "US2021372574A1"
      = ["US20210372574A1", "US202100372574A1"] ∧
    (us_insert_zero_variants "US2021372574A1").length ≠ 1 := by
  refine ⟨by decide, by decide⟩

/-- C7 amended: the primary pipeline's generator
`_us_insert_zero_variant` behaves as the claim states — a parse with a
6-digit serial yields exactly one alternate, which parses back with
the same year and kind and with the serial extended by a single
leading zero, and any other serial length yields no alternate — while
the bulk secondary fetcher's generator `us_insert_zero_variants`
zero-pads the serial to widths 7 and 8, yielding up to two
alternates. -/
theorem c7_zero_variant_amended :
    (∀ (p : String) (year mid kind : List Char),
      usMatch (normPubChars p.data) = some (year, mid, kind) →
      (mid.length = 6 → ∃ v, us_insert_zero_variant p = some v ∧
        usMatch (normPubChars v.data) = some (year, '0' :: mid, kind)) ∧
      (mid.length ≠ 6 → us_insert_zero_variant p = none)) ∧
    us_insert_zero_variants "US2021372574A1"
      = ["US20210372574A1", "US202100372574A1"] ∧
    us_insert_zero_variants "US202100372574A1" = [] := by
  refine ⟨?_, by decide, by decide⟩
  intro p year mid kind husm
  constructor
  · intro hlen
    obtain ⟨hveq, hvparse⟩ := us_insert_zero_variant_eq husm hlen
    exact ⟨String.mk ('U' :: 'S' :: year ++ '0' :: (mid ++ kind)), hveq, hvparse⟩
  · intro hlen
    unfold us_insert_zero_variant
    rw [husm]
    show (if mid.length = 6 then
        some (String.mk ('U' :: 'S' :: year ++ '0' :: (mid ++ kind)))
      else none) = none
    rw [if_neg hlen]

/-- C7 amended witness: the generator applied at `US2021372574A1`
(6-digit serial, one alternate) and at `US20210372574A1` (7-digit
serial, no alternate). -/
theorem c7_zero_variant_amended_witness :
    (∃ v, us_insert_zero_variant "US2021372574A1" = some v ∧
      usMatch (normPubChars v.data)
        = some (['2', '0', '2', '1'],
            '0' :: ['3', '7', '2', '5', '7', '4'], ['A', '1'])) ∧
    us_insert_zero_variant "US20210372574A1" = none :=
  ⟨(c7_zero_variant_amended.1 "US2021372574A1" ['2', '0', '2', '1']
      ['3', '7', '2', '5', '7', '4'] ['A', '1'] (by decide)).1 (by decide),
    (c7_zero_variant_amended.1 "US20210372574A1" ['2', '0', '2', '1']
      ['0', '3', '7', '2', '5', '7', '4'] ['A', '1'] (by decide)).2 (by decide)⟩

/-- C10: a produced zero-insert variant never spawns a further variant
(its serial has 7 digits, not 6), and the secondary fetcher's slug
try-list in `fetch_claims_google_text` therefore has at most two
entries. -/
theorem c10_variant_idempotent :
    (∀ (p v : String), us_insert_zero_variant p = some v →
      us_insert_zero_variant v = none) ∧
    (∀ q : String, (google_pubs_to_try q).length ≤ 2) := by
  constructor
  · intro p v h
    have h0 := h
    unfold us_insert_zero_variant at h0
    cases husm : usMatch (normPubChars p.data) with
    | none => rw [husm] at h0; exact absurd h0 (by simp)
    | some triple =>
      obtain ⟨year, mid, kind⟩ := triple
      rw [husm] at h0
      have h0' : (if mid.length = 6 then
          some (String.mk ('U' :: 'S' :: year ++ '0' :: (mid ++ kind)))
        else none) = some v := h0
      by_cases hlen : mid.length = 6
      · rw [if_pos hlen] at h0'
        obtain ⟨hveq, hvparse⟩ := us_insert_zero_variant_eq husm hlen
        have hvval : v = String.mk ('U' :: 'S' :: year ++ '0' :: (mid ++ kind)) :=
          (Option.some.inj h0').symm
        subst hvval
        unfold us_insert_zero_variant
        rw [show (String.mk ('U' :: 'S' :: year ++ '0' :: (mid ++ kind))).data
            = 'U' :: 'S' :: year ++ '0' :: (mid ++ kind) from rfl]
        rw [hvparse]
        show (if ('0' :: mid).length = 6 then
            some (String.mk ('U' :: 'S' :: year ++ '0' :: (('0' :: mid) ++ kind)))
          else none) = none
        rw [if_neg (by simp [hlen])]
      · rw [if_neg hlen] at h0'
        exact Option.noConfusion h0'
  · intro q
    unfold google_pubs_to_try
    cases h : us_insert_zero_variant (normPub q) with
    | none => simp
    | some alt0 =>
      simp only [h]
      split <;> simp

/-- C10 witness: the idempotence applied at `US2021372574A1`, whose
variant is `US20210372574A1`, together with the try-list bound there. -/
theorem c10_variant_idempotent_witness :
    us_insert_zero_variant "US20210372574A1" = none ∧
    (google_pubs_to_try "US2021372574A1").length ≤ 2 :=
  ⟨c10_variant_idempotent.1 "US2021372574A1" "US20210372574A1" (by decide),
    c10_variant_idempotent.2 "US2021372574A1"⟩

end Lasr














